import Mathlib

/-!
# Verification of the pdd block-copy engine (src/pdd.c)

Shallow embedding of the pdd `dd`-style copy program. Pure helpers of the C
source (`parse_size`, `format_size`, the option handlers, `validate_options`,
`calculate_progress`, the summary arithmetic) become Lean functions on
`Nat`/`Int`/`Rat`; the stateful copy engine (`copy_file` and its main loop)
becomes an explicit state-passing function over an environment that records
the outcomes of the system calls it performs (open, allocate, lseek) and the
source's byte content, modelled as its size with regular-file read semantics:
a `read` of `block_size` bytes at position `pos` of a source of `src_size`
bytes returns `min block_size (src_size - pos)` bytes and never fails.  Write,
read-error and fsync-error abort paths of the loop are not exercised by any
claim and are not modelled; the positioning abort paths are.  C `size_t`
arithmetic is `Nat` with explicit `% 2 ^ 64` where the source can overflow,
and C `double` arithmetic is `Rat` (exact where the claims evaluate it).
-/

set_option autoImplicit false

namespace Pdd

/-! ## Constants (pdd.c lines 41-46) -/

def DEFAULT_BLOCK_SIZE : ℕ := 128 * 1024

def MAX_BLOCK_SIZE : ℕ := 128 * 1024 * 1024

def MIN_BLOCK_SIZE : ℕ := 512

def MEGABYTE : ℕ := 1024 * 1024

/-- Modulus of C `size_t`/`unsigned long long` arithmetic on an LP64 platform. -/
def USIZE : ℕ := 2 ^ 64

def ULLONG_MAX : ℕ := 2 ^ 64 - 1

def EXIT_SUCCESS : ℕ := 0

def EXIT_FAILURE : ℕ := 1

def STDIN_FILENO : Int := 0

def STDOUT_FILENO : Int := 1

/-! ## Data model (pdd.c lines 62-88) -/

/-- The `Options` struct (pdd.c lines 62-73).  `skip` and `seek` are `off_t`
in the source and receive `parse_size` results (a `size_t`); values at or
above `2 ^ 63` would convert implementation-defined and are outside the
modelled range, so both are kept as `Nat` here. -/
structure Options where
  if_path : String
  of_path : String
  block_size : ℕ
  count : ℕ
  skip : ℕ
  seek : ℕ
  sync_flag : Bool
  direct_flag : Bool
  fsync_flag : Bool
deriving DecidableEq

/-! ## parse_size (pdd.c lines 195-223) -/

/-- White space as C `isspace` classifies it in the POSIX locale. -/
def isSpaceChar (c : Char) : Bool :=
  c == ' ' || c == '\t' || c == '\n' || c == '\x0b' || c == '\x0c' || c == '\r'

/-- Value of a run of decimal digits, most significant first. -/
def digitsVal (ds : List Char) : ℕ :=
  ds.foldl (fun a c => a * 10 + (c.toNat - 48)) 0

/-- Result of `strtoull(str, &endptr, 10)`: the converted value, the suffix
`endptr` points at, and whether any conversion was performed (when none is,
C leaves `endptr == str` and the value is 0). -/
structure StrtoullOut where
  value : ℕ
  rest : List Char
  consumed : Bool
deriving DecidableEq

/-- Model of C `strtoull` in base 10: skip white space, an optional sign,
then a run of decimal digits.  Overflow clamps to `ULLONG_MAX`; a leading
minus negates the value in `2 ^ 64` arithmetic, as the C standard specifies
for the unsigned conversion functions. -/
def strtoull10 (s : List Char) : StrtoullOut :=
  let t := s.dropWhile isSpaceChar
  let neg : Bool :=
    match t with
    | c :: _ => c == '-'
    | [] => false
  let t2 : List Char :=
    match t with
    | c :: cs => if c == '-' || c == '+' then cs else t
    | [] => []
  let ds := t2.takeWhile Char.isDigit
  let rest := t2.dropWhile Char.isDigit
  if ds.isEmpty then ⟨0, s, false⟩
  else
    let v := min (digitsVal ds) ULLONG_MAX
    ⟨if neg then (USIZE - v) % USIZE else v, rest, true⟩

/-- The `parse_size` function (pdd.c lines 195-223): `strtoull` the digits,
return 0 when nothing was converted, then dispatch on `toupper(*endptr)`:
`K`/`M`/`G` multiply (in `size_t` arithmetic), the terminating NUL keeps the
value, and any other suffix character returns 0. -/
def parse_size (str : String) : ℕ :=
  let r := strtoull10 str.data
  if r.consumed = false then 0
  else
    match r.rest with
    | [] => r.value
    | c :: _ =>
      let u := c.toUpper
      if u = 'K' then r.value * 1024 % USIZE
      else if u = 'M' then r.value * (1024 * 1024) % USIZE
      else if u = 'G' then r.value * (1024 * 1024 * 1024) % USIZE
      else if u = Char.ofNat 0 then r.value
      else 0

/-! ## format_size (pdd.c lines 226-237) -/

def UNIT_STRINGS : List String := ["B", "KB", "MB", "GB", "TB"]

/-- The division loop of `format_size`: divide by 1024 while the value is at
least 1024 and the unit is below `UNIT_TB` (= 4).  Returns the scaled value
and the selected unit index. -/
def format_size_loop (size : ℚ) (unit : ℕ) : ℚ × ℕ :=
  if 1024 ≤ size ∧ unit < 4 then format_size_loop (size / 1024) (unit + 1)
  else (size, unit)
termination_by 4 - unit
decreasing_by omega

/-- The `format_size` function (pdd.c lines 226-237): the scaled value and the
unit suffix.  The C code renders the pair with `snprintf("%.2f %s", ...)`,
that is the value to two decimal places followed by the suffix string. -/
def format_size (size : ℚ) : ℚ × String :=
  let p := format_size_loop size 0
  (p.1, UNIT_STRINGS.getD p.2 "")

/-! ## Option handlers and validation (pdd.c lines 718-766, 813-859) -/

/-- Outcome of an option handler or of `validate_options`: either the updated
options, or the message of a fatal `fprintf(stderr, "error: ...")` followed
by `exit(EXIT_FAILURE)`.  A `.ok` result emits no diagnostic at all. -/
inductive HandlerOut where
  | ok (opts : Options)
  | fatal (msg : String)
deriving DecidableEq

/-- The `handle_bs` handler (pdd.c lines 728-736): stores the parsed size and
exits fatally when it is zero or above `MAX_BLOCK_SIZE`.  No lower bound is
checked: `MIN_BLOCK_SIZE` appears nowhere in the handler. -/
def handle_bs (opts : Options) (value : String) : HandlerOut :=
  let bs := parse_size value
  if bs = 0 ∨ bs > MAX_BLOCK_SIZE then .fatal ("invalid block size: " ++ value)
  else .ok { opts with block_size := bs }

/-- The `handle_count` handler (pdd.c lines 738-741): stores the parse result
unconditionally, with no diagnostic. -/
def handle_count (opts : Options) (value : String) : HandlerOut :=
  .ok { opts with count := parse_size value }

/-- The `handle_skip` handler (pdd.c lines 743-746). -/
def handle_skip (opts : Options) (value : String) : HandlerOut :=
  .ok { opts with skip := parse_size value }

/-- The `handle_seek` handler (pdd.c lines 748-751). -/
def handle_seek (opts : Options) (value : String) : HandlerOut :=
  .ok { opts with seek := parse_size value }

/-- The `validate_options` function (pdd.c lines 813-859): fatal when the
block size is zero, fatal when source and destination paths are equal and not
the standard-stream token.  The direct-I/O branch only downgrades
`direct_flag` (with a warning) when the platform probe fails; `direct_ok`
stands for that platform-dependent probe outcome. -/
def validate_options (opts : Options) (direct_ok : Bool) : HandlerOut :=
  if opts.block_size = 0 then .fatal "block size cannot be zero"
  else
    let opts2 := { opts with direct_flag := opts.direct_flag && direct_ok }
    if opts.if_path = opts.of_path ∧ opts.if_path ≠ "-" then
      .fatal "input and output files are the same"
    else .ok opts2

/-! ## Progress and summary arithmetic (pdd.c lines 260-286, 699-708) -/

/-- The `ProgressInfo` struct (pdd.c lines 90-98); the two strings hold
`format_size` renderings and are modelled as the (value, suffix) pairs. -/
structure ProgressInfo where
  bar_width : ℤ
  progress : ℚ
  speed : ℚ
  eta : ℚ
  speed_str : ℚ × String
  size_str : ℚ × String
deriving DecidableEq

/-- The `calculate_progress` function (pdd.c lines 260-286): when the elapsed
time is under 0.1 s it returns without touching the info at all; otherwise it
computes percentage, speed and ETA.  The ETA's `total_bytes - bytes_copied`
is C `size_t` subtraction, hence the explicit `% 2 ^ 64`. -/
def calculate_progress (info : ProgressInfo) (bytes_copied : ℕ) (elapsed : ℚ)
    (total_bytes : ℕ) : ProgressInfo :=
  if elapsed < 1 / 10 then info
  else
    { bar_width := 20
      progress := if 0 < total_bytes then (bytes_copied : ℚ) / (total_bytes : ℚ) * 100 else 0
      speed := (bytes_copied : ℚ) / elapsed
      eta :=
        if 0 < total_bytes then
          elapsed / (bytes_copied : ℚ) * (((total_bytes + USIZE - bytes_copied) % USIZE : ℕ) : ℚ)
        else 0
      speed_str := format_size ((bytes_copied : ℚ) / elapsed)
      size_str := format_size (bytes_copied : ℚ) }

/-- Average MB/s as the terminal summary prints it (pdd.c lines 705-708):
`(double)stats.total_bytes_copied / MEGABYTE / stats.elapsed_time`, an
unconditional division with no branch on the elapsed time. -/
def summary_mbps (bytes_copied : ℕ) (elapsed : ℚ) : ℚ :=
  (bytes_copied : ℚ) / (MEGABYTE : ℚ) / elapsed

/-- The two record-count lines of the summary (pdd.c lines 700-701). -/
def summary_lines (blocks : ℕ) : List String :=
  [Nat.repr blocks ++ "+0 records in", Nat.repr blocks ++ "+0 records out"]

/-! ## The copy engine (pdd.c lines 584-714) -/

/-- Counters of the `CopyStats` struct updated by the main loop, together
with the number of `read` calls the loop issued. -/
structure LoopOut where
  blocks : ℕ
  bytes : ℕ
  reads : ℕ
deriving DecidableEq

/-- The main copy loop (pdd.c lines 647-690):
`while (!stop_requested && (count == 0 || blocks_copied < count))`, read up to
`B` bytes, break on a zero read (end of file, not an abort), write them, and
increment the counters.  `cancel blocks` is the value of the volatile
`stop_requested` flag the iteration starting with `blocks` blocks copied
observes.  Reads follow regular-file semantics on a source of `S` bytes:
a read at `pos` returns `min B (S - pos)` bytes; writes succeed in full
(the read-error, short-write and fsync abort paths are not modelled). -/
def copyLoop (cancel : ℕ → Bool) (count B S pos blocks bytes reads : ℕ) : LoopOut :=
  if cancel blocks = false ∧ (count = 0 ∨ blocks < count) then
    if hr : min B (S - pos) = 0 then ⟨blocks, bytes, reads + 1⟩
    else
      copyLoop cancel count B S (pos + min B (S - pos)) (blocks + 1)
        (bytes + min B (S - pos)) (reads + 1)
  else ⟨blocks, bytes, reads⟩
termination_by S - pos
decreasing_by omega

/-- Outcomes of the system calls `copy_file` performs, plus the source file's
size (regular-file read semantics) and the observed cancellation flag.
`in_fd`/`out_fd` are the descriptors a successful non-stdio `open` returns. -/
structure Env where
  open_in_ok : Bool
  open_out_ok : Bool
  in_fd : Int
  out_fd : Int
  alloc_ok : Bool
  skip_ok : Bool
  seek_ok : Bool
  probe_size : ℕ
  src_size : ℕ
  cancel : ℕ → Bool

/-- The `open_file` function (pdd.c lines 429-456): the path token `-` binds
to the inherited standard descriptor without an `open` call; otherwise `open`
either yields a descriptor or fails. -/
def open_file (path : String) (is_input : Bool) (os_ok : Bool) (os_fd : Int) : Option Int :=
  if path = "-" then some (if is_input then STDIN_FILENO else STDOUT_FILENO)
  else if os_ok then some os_fd else none

/-- Descriptors `cleanup_and_exit` closes, in order (pdd.c lines 355-389):
the input descriptor when it is not -1, then the output descriptor when it
is not -1.  The buffer, when non-null, is freed before either close. -/
def cleanup_closes (in_fd out_fd : Int) : List Int :=
  (if in_fd ≠ -1 then [in_fd] else []) ++ (if out_fd ≠ -1 then [out_fd] else [])

/-- Observable outcome of a `copy_file` run: either the summary's counters
with the success path's actions, or an abort through `cleanup_and_exit` with
its diagnostic message.  `closed` lists the descriptors closed, in order;
`freed` says whether a buffer free was performed. -/
inductive RunResult where
  | success (blocks bytes : ℕ) (closed : List Int) (freed : Bool)
  | aborted (msg : String) (closed : List Int) (freed : Bool)
deriving DecidableEq

/-- Exit status of the process for a run: `cleanup_and_exit` calls
`exit(EXIT_FAILURE)`; the success path returns `EXIT_SUCCESS`, which `main`
returns (pdd.c lines 388, 713, 941). -/
def run_exit_code : RunResult → ℕ
  | .success _ _ _ _ => EXIT_SUCCESS
  | .aborted _ _ _ => EXIT_FAILURE

/-- The `copy_file` function (pdd.c lines 584-714): open input, open output,
probe the block size when none was configured, allocate the aligned buffer,
apply the skip and seek repositionings (`lseek(fd, off * block_size,
SEEK_SET)`, failure aborts), run the main loop, and on the success path print
the summary, free the buffer and close both descriptors unconditionally. -/
def copy_file (opts : Options) (env : Env) : RunResult :=
  match open_file opts.if_path true env.open_in_ok env.in_fd with
  | none => .aborted ("error opening input file " ++ opts.if_path) (cleanup_closes (-1) (-1)) false
  | some ifd =>
    match open_file opts.of_path false env.open_out_ok env.out_fd with
    | none =>
      .aborted ("error opening output file " ++ opts.of_path) (cleanup_closes ifd (-1)) false
    | some ofd =>
      let bs := if opts.block_size = 0 then env.probe_size else opts.block_size
      if env.alloc_ok = false then
        .aborted "error allocating aligned memory" (cleanup_closes ifd ofd) false
      else if 0 < opts.skip ∧ env.skip_ok = false then
        .aborted "error skipping input blocks" (cleanup_closes ifd ofd) true
      else if 0 < opts.seek ∧ env.seek_ok = false then
        .aborted "error seeking output blocks" (cleanup_closes ifd ofd) true
      else
        let out := copyLoop env.cancel opts.count bs env.src_size (opts.skip * bs) 0 0 0
        .success out.blocks out.bytes [ifd, ofd] true

/-- Options with the fields the claims vary, paths fixed to two distinct
regular files. -/
def mkOpts (B count skp : ℕ) : Options :=
  { if_path := "in", of_path := "out", block_size := B, count := count, skip := skp,
    seek := 0, sync_flag := false, direct_flag := false, fsync_flag := false }

/-- Environment of a run whose system calls all succeed, on a source of `S`
bytes, with descriptors 3 and 4 for the two opened files. -/
def mkEnv (S : ℕ) (cancel : ℕ → Bool) : Env :=
  { open_in_ok := true, open_out_ok := true, in_fd := 3, out_fd := 4, alloc_ok := true,
    skip_ok := true, seek_ok := true, probe_size := DEFAULT_BLOCK_SIZE, src_size := S,
    cancel := cancel }

/-- Block size the engine uses: the configured one, or the probe's result when
none was configured (pdd.c lines 606-609). -/
def chosen_bs (opts : Options) (env : Env) : ℕ :=
  if opts.block_size = 0 then env.probe_size else opts.block_size

/-- Descriptor the engine holds for the source after `Opening`. -/
def in_descriptor (opts : Options) (env : Env) : Int :=
  if opts.if_path = "-" then STDIN_FILENO else env.in_fd

/-- Descriptor the engine holds for the destination after `Opening`. -/
def out_descriptor (opts : Options) (env : Env) : Int :=
  if opts.of_path = "-" then STDOUT_FILENO else env.out_fd

/-- ProgressInfo as `copy_file` zero-initializes it (pdd.c line 644). -/
def info0 : ProgressInfo :=
  { bar_width := 0, progress := 0, speed := 0, eta := 0, speed_str := (0, ""),
    size_str := (0, "") }

/-! ## Arithmetic helpers -/

lemma ceil_div_succ (B x : ℕ) (hB : 0 < B) (hx : 0 < x) :
    (x + B - 1) / B = (x - 1) / B + 1 := by
  have h : x + B - 1 = x - 1 + B := by omega
  rw [h, Nat.add_div_right _ hB]

lemma ceil_div_step (B d : ℕ) (hB : 0 < B) (hd : 0 < d) :
    (d + B - 1) / B = (d - min B d + B - 1) / B + 1 := by
  rw [ceil_div_succ B d hB hd]
  rcases le_total B d with h | h
  · have h1 : min B d = B := min_eq_left h
    have h2 : d - B + B - 1 = d - 1 := by omega
    rw [h1, h2]
  · have h1 : min B d = d := min_eq_right h
    have h2 : d - d + B - 1 = B - 1 := by omega
    have h3 : (B - 1) / B = 0 := Nat.div_eq_of_lt (by omega)
    have h4 : (d - 1) / B = 0 := Nat.div_eq_of_lt (by omega)
    rw [h1, h2, h3, h4]

/-! ## Loop lemmas -/

/-- Exact characterisation of the loop with no block-count limit and no
cancellation: every remaining byte is copied, in ceiling-division many
blocks, and one final zero-byte read ends the loop. -/
lemma copyLoop_no_limit (B : ℕ) (hB : 0 < B) :
    ∀ (n pos blocks bytes reads S : ℕ), S - pos ≤ n →
      copyLoop (fun _ => false) 0 B S pos blocks bytes reads =
        ⟨blocks + (S - pos + B - 1) / B, bytes + (S - pos),
          reads + ((S - pos + B - 1) / B + 1)⟩ := by
  intro n
  induction n with
  | zero =>
    intro pos blocks bytes reads S hn
    have hsp : S - pos = 0 := by omega
    have h1 : (B - 1) / B = 0 := Nat.div_eq_of_lt (by omega)
    rw [copyLoop]
    simp [hsp, h1]
  | succ n ih =>
    intro pos blocks bytes reads S hn
    rcases Nat.eq_zero_or_pos (S - pos) with hsp | hsp
    · have h1 : (B - 1) / B = 0 := Nat.div_eq_of_lt (by omega)
      rw [copyLoop]
      simp [hsp, h1]
    · have hmin : ¬ min B (S - pos) = 0 := by omega
      have hrec := ih (pos + min B (S - pos)) (blocks + 1)
        (bytes + min B (S - pos)) (reads + 1) S (by omega)
      have hm1 : S - (pos + min B (S - pos)) = S - pos - min B (S - pos) := by omega
      rw [hm1] at hrec
      rw [copyLoop]
      have hstep := ceil_div_step B (S - pos) hB hsp
      simp [hmin, hrec, hstep, LoopOut.mk.injEq]
      generalize (S - pos - min B (S - pos) + B - 1) / B = q
      refine ⟨by omega, by omega, by omega⟩

/-- Invariant bounds of the loop under a positive block-count limit: at most
`L - blocks` further reads, at most `(L - blocks) * B` further bytes, and the
block counter never passes `L`.  Holds for every cancellation pattern. -/
lemma copyLoop_limit_bounds (cancel : ℕ → Bool) (L B S : ℕ) (hL : 0 < L) :
    ∀ (n pos blocks bytes reads : ℕ), S - pos ≤ n → blocks ≤ L →
      (copyLoop cancel L B S pos blocks bytes reads).reads ≤ reads + (L - blocks) ∧
      (copyLoop cancel L B S pos blocks bytes reads).bytes ≤ bytes + (L - blocks) * B ∧
      (copyLoop cancel L B S pos blocks bytes reads).blocks ≤ L := by
  intro n
  induction n with
  | zero =>
    intro pos blocks bytes reads hn hb
    have hmin : min B (S - pos) = 0 := by omega
    rw [copyLoop]
    split
    · next hcond =>
      have hblt : blocks < L := by
        rcases hcond.2 with h | h
        · omega
        · exact h
      simp [hmin]
      omega
    · simp
      exact hb
  | succ n ih =>
    intro pos blocks bytes reads hn hb
    rw [copyLoop]
    split
    · next hcond =>
      have hblt : blocks < L := by
        rcases hcond.2 with h | h
        · omega
        · exact h
      split
      · next hmin =>
        simp
        omega
      · next hmin =>
        have hrec := ih (pos + min B (S - pos)) (blocks + 1)
          (bytes + min B (S - pos)) (reads + 1) (by omega) (by omega)
        obtain ⟨h1, h2, h3⟩ := hrec
        have hmB : min B (S - pos) ≤ B := min_le_left _ _
        have hmul : (L - blocks) * B = (L - (blocks + 1)) * B + B := by
          have h : L - blocks = (L - (blocks + 1)) + 1 := by omega
          rw [h, Nat.succ_mul]
        refine ⟨by omega, by linarith, h3⟩
    · simp
      exact hb

/-- The loop body never runs once the guard fails: a set cancellation flag or
an exhausted block-count limit returns the counters untouched. -/
lemma copyLoop_guard_exit (cancel : ℕ → Bool) (count B S pos blocks bytes reads : ℕ)
    (h : cancel blocks = true ∨ (count ≠ 0 ∧ count ≤ blocks)) :
    copyLoop cancel count B S pos blocks bytes reads = ⟨blocks, bytes, reads⟩ := by
  have hneg : ¬ (cancel blocks = false ∧ (count = 0 ∨ blocks < count)) := by
    rcases h with h | h
    · simp [h]
    · rintro ⟨h1, h2 | h2⟩
      · omega
      · omega
  rw [copyLoop, if_neg hneg]

/-- Exact behaviour under a cancellation flag raised once `N` blocks are
copied, on a source with at least `N * B` bytes and no block-count limit:
the loop stops at exactly `N` blocks and `N * B` bytes. -/
lemma copyLoop_cancel_exact (N B S : ℕ) (hB : 0 < B) (hS : N * B ≤ S) :
    ∀ (n j reads : ℕ), N - j ≤ n → j ≤ N →
      copyLoop (fun k => decide (N ≤ k)) 0 B S (j * B) j (j * B) reads =
        ⟨N, N * B, reads + (N - j)⟩ := by
  intro n
  induction n with
  | zero =>
    intro j reads hn hj
    have hj2 : j = N := by omega
    subst hj2
    rw [copyLoop]
    simp
  | succ n ih =>
    intro j reads hn hj
    rcases eq_or_lt_of_le hj with hj2 | hj2
    · subst hj2
      rw [copyLoop]
      simp
    · have hcond : decide (N ≤ j) = false := decide_eq_false (by omega)
      have hSj : j * B + B ≤ S := by
        have h : (j + 1) * B ≤ N * B := Nat.mul_le_mul_right B (by omega)
        rw [Nat.succ_mul] at h
        omega
      have hmin : min B (S - j * B) = B := min_eq_left (by omega)
      have hrec := ih (j + 1) (reads + 1) (by omega) (by omega)
      rw [copyLoop]
      simp only [hcond, hmin, hB.ne']
      rw [dif_neg not_false]
      rw [show j * B + B = (j + 1) * B by rw [Nat.succ_mul]]
      rw [hrec, show reads + 1 + (N - (j + 1)) = reads + (N - j) by omega]
      simp

/-! ## Engine lemmas -/

/-- Shape of every run whose opens, allocation and repositionings succeed:
the engine reaches the summary and the success path frees the buffer and
closes both descriptors, the standard-stream ones included. -/
lemma copy_file_success (opts : Options) (env : Env)
    (h1 : env.open_in_ok = true) (h2 : env.open_out_ok = true)
    (h3 : env.alloc_ok = true) (h4 : env.skip_ok = true) (h5 : env.seek_ok = true) :
    copy_file opts env =
      .success
        (copyLoop env.cancel opts.count (chosen_bs opts env) env.src_size
          (opts.skip * chosen_bs opts env) 0 0 0).blocks
        (copyLoop env.cancel opts.count (chosen_bs opts env) env.src_size
          (opts.skip * chosen_bs opts env) 0 0 0).bytes
        [in_descriptor opts env, out_descriptor opts env] true := by
  unfold copy_file open_file chosen_bs in_descriptor out_descriptor
  by_cases hin : opts.if_path = "-" <;> by_cases hout : opts.of_path = "-" <;>
    simp [hin, hout, h1, h2, h3, h4, h5]

/-- Invariants of the `format_size` division loop started at unit `u`: the
final unit is between `u` and 4, the final value is the input divided by
1024 to the number of divisions performed, a final unit under the cap means
the value dropped below 1024, and every unit passed over had value at least
1024. -/
lemma format_size_loop_spec :
    ∀ (n : ℕ) (x : ℚ) (u : ℕ), 4 - u ≤ n → u ≤ 4 →
      u ≤ (format_size_loop x u).2 ∧
      (format_size_loop x u).2 ≤ 4 ∧
      (format_size_loop x u).1 = x / 1024 ^ ((format_size_loop x u).2 - u) ∧
      ((format_size_loop x u).2 < 4 → (format_size_loop x u).1 < 1024) ∧
      (∀ j, u ≤ j → j < (format_size_loop x u).2 → 1024 ≤ x / 1024 ^ (j - u)) := by
  intro n
  induction n with
  | zero =>
    intro x u hn hu
    have hu4 : u = 4 := by omega
    subst hu4
    rw [format_size_loop]
    simp
    intro j hj1 hj2
    omega
  | succ n ih =>
    intro x u hn hu
    by_cases hc : 1024 ≤ x ∧ u < 4
    · rw [format_size_loop, if_pos hc]
      have hrec := ih (x / 1024) (u + 1) (by omega) (by omega)
      obtain ⟨r1, r2, r3, r4, r5⟩ := hrec
      refine ⟨by omega, r2, ?_, r4, ?_⟩
      · rw [r3]
        have hk : (format_size_loop (x / 1024) (u + 1)).2 - u =
            ((format_size_loop (x / 1024) (u + 1)).2 - (u + 1)) + 1 := by omega
        rw [hk, pow_succ, div_div, mul_comm]
      · intro j hj hjlt
        rcases eq_or_lt_of_le hj with hj2 | hj2
        · subst hj2
          simpa using hc.1
        · have h5 := r5 j (by omega) hjlt
          have hk : j - u = (j - (u + 1)) + 1 := by omega
          rw [hk, pow_succ, mul_comm, ← div_div]
          exact h5
    · rw [format_size_loop, if_neg hc]
      dsimp only
      push_neg at hc
      refine ⟨le_refl u, hu, by simp, ?_, ?_⟩
      · intro hu4
        by_contra hx
        push_neg at hx
        have h2 := hc hx
        omega
      · intro j hj hjlt
        omega

/-! ## Claim theorems -/

/-- C1: for every source of size `S` copied with block size `B`, no
block-count limit and no cancellation, the copy loop terminates with
blocks-copied `= ceil(S / B)` and bytes-copied `= S` exactly, reaching the
success path (the zero-byte read ends the loop normally, not as an abort);
in particular an empty source (`S = 0`) terminates immediately with zero
blocks and zero bytes copied. -/
theorem C1_round_trip (B S : ℕ) (hB : 0 < B) :
    copy_file (mkOpts B 0 0) (mkEnv S (fun _ => false)) =
      .success ((S + B - 1) / B) S [3, 4] true ∧
    copy_file (mkOpts B 0 0) (mkEnv 0 (fun _ => false)) =
      .success 0 0 [3, 4] true := by
  have key : ∀ T : ℕ, copy_file (mkOpts B 0 0) (mkEnv T (fun _ => false)) =
      .success ((T + B - 1) / B) T [3, 4] true := by
    intro T
    rw [copy_file_success _ _ rfl rfl rfl rfl rfl]
    have hloop := copyLoop_no_limit B hB T 0 0 0 0 T (by omega)
    simp only [chosen_bs, in_descriptor, out_descriptor, mkOpts, mkEnv, hB.ne',
      if_false, Nat.zero_mul, Nat.sub_zero] at *
    simp [hloop, hB.ne']
  refine ⟨key S, ?_⟩
  have h0 := key 0
  have hz : (0 + B - 1) / B = 0 := Nat.div_eq_of_lt (by omega)
  rw [hz] at h0
  exact h0

/-- C1 witness: a 10-byte source with block size 4 copies 3 blocks and 10
bytes and reaches the success path. -/
theorem C1_witness :
    0 < 4 ∧
    copy_file (mkOpts 4 0 0) (mkEnv 10 (fun _ => false)) = .success 3 10 [3, 4] true := by
  have h := (C1_round_trip 4 10 (by norm_num)).1
  norm_num at h
  exact ⟨by norm_num, h⟩

/-- C2: with a block-count limit `L > 0` the loop performs at most `L` read
attempts and copies at most `L * B` bytes (and at most `L` blocks), for every
cancellation pattern; and the loop body runs only while cancellation is
unset and (the limit is zero or blocks copied so far is below the limit) —
once the guard fails the counters are returned untouched. -/
theorem C2_limit_bounds (cancel : ℕ → Bool) (L B S : ℕ) (hL : 0 < L) :
    (copyLoop cancel L B S 0 0 0 0).reads ≤ L ∧
    (copyLoop cancel L B S 0 0 0 0).bytes ≤ L * B ∧
    (copyLoop cancel L B S 0 0 0 0).blocks ≤ L ∧
    (∀ pos blocks bytes reads, cancel blocks = true ∨ L ≤ blocks →
      copyLoop cancel L B S pos blocks bytes reads = ⟨blocks, bytes, reads⟩) := by
  obtain ⟨h1, h2, h3⟩ := copyLoop_limit_bounds cancel L B S hL S 0 0 0 0 (by omega) (by omega)
  simp only [Nat.sub_zero, Nat.zero_add] at h1 h2
  refine ⟨by omega, by simpa using h2, h3, ?_⟩
  intro pos blocks bytes reads h
  apply copyLoop_guard_exit
  rcases h with h | h
  · exact Or.inl h
  · exact Or.inr ⟨by omega, h⟩

/-- C2 witness: limit 2, block size 4, a 100-byte source: at most 2 reads,
at most 8 bytes, at most 2 blocks. -/
theorem C2_witness :
    (copyLoop (fun _ => false) 2 4 100 0 0 0 0).reads ≤ 2 ∧
    (copyLoop (fun _ => false) 2 4 100 0 0 0 0).bytes ≤ 2 * 4 ∧
    (copyLoop (fun _ => false) 2 4 100 0 0 0 0).blocks ≤ 2 ∧
    (∀ pos blocks bytes reads, (fun _ : ℕ => false) blocks = true ∨ 2 ≤ blocks →
      copyLoop (fun _ => false) 2 4 100 pos blocks bytes reads = ⟨blocks, bytes, reads⟩) :=
  C2_limit_bounds (fun _ => false) 2 4 100 (by norm_num)

/-- C3: when the cancellation flag is observed set once `N` blocks have been
copied (source large enough to supply them, no block-count limit), the run
reaches the success path with exactly `N` blocks and `N * B` bytes — the
summary therefore reports `N` records — and the process exit status is
`EXIT_SUCCESS`: cancellation is not an error. -/
theorem C3_cancel_summary (N B S : ℕ) (hB : 0 < B) (hS : N * B ≤ S) :
    copy_file (mkOpts B 0 0) (mkEnv S (fun k => decide (N ≤ k))) =
      .success N (N * B) [3, 4] true ∧
    run_exit_code (copy_file (mkOpts B 0 0) (mkEnv S (fun k => decide (N ≤ k)))) =
      EXIT_SUCCESS := by
  have hmain : copy_file (mkOpts B 0 0) (mkEnv S (fun k => decide (N ≤ k))) =
      .success N (N * B) [3, 4] true := by
    rw [copy_file_success _ _ rfl rfl rfl rfl rfl]
    have hloop := copyLoop_cancel_exact N B S hB hS N 0 0 (by omega) (by omega)
    simp only [Nat.zero_mul] at hloop
    simp only [chosen_bs, in_descriptor, out_descriptor, mkOpts, mkEnv, hB.ne',
      if_false, Nat.zero_mul, Nat.sub_zero] at *
    simp [hloop, hB.ne']
  exact ⟨hmain, by rw [hmain]; rfl⟩

/-- C3 witness: flag raised after 2 blocks of 4 bytes on a 100-byte source:
exactly 2 blocks, 8 bytes, exit status success. -/
theorem C3_witness :
    copy_file (mkOpts 4 0 0) (mkEnv 100 (fun k => decide (2 ≤ k))) =
      .success 2 8 [3, 4] true ∧
    run_exit_code (copy_file (mkOpts 4 0 0) (mkEnv 100 (fun k => decide (2 ≤ k)))) =
      EXIT_SUCCESS := by
  have h := C3_cancel_summary 2 4 100 (by norm_num) (by norm_num)
  norm_num at h
  exact h

/-- C7: with skip `K` the source cursor starts at `K * B` (the engine passes
`skip * block_size` to the `SEEK_SET` reposition), so a source of size
`S > K * B` with no limit copies exactly `S - K * B` bytes; and a failed
reposition aborts the run through the cleanup path. -/
theorem C7_skip_positioning (K B S : ℕ) (hB : 0 < B) (hKB : K * B < S) :
    copy_file (mkOpts B 0 K) (mkEnv S (fun _ => false)) =
      .success ((S - K * B + B - 1) / B) (S - K * B) [3, 4] true ∧
    (0 < K →
      copy_file (mkOpts B 0 K) { mkEnv S (fun _ => false) with skip_ok := false } =
        .aborted "error skipping input blocks" [3, 4] true) := by
  constructor
  · rw [copy_file_success _ _ rfl rfl rfl rfl rfl]
    have hloop := copyLoop_no_limit B hB S (K * B) 0 0 0 S (by omega)
    simp only [chosen_bs, in_descriptor, out_descriptor, mkOpts, mkEnv, hB.ne',
      if_false] at *
    simp [hloop, hB.ne']
  · intro hK
    unfold copy_file open_file cleanup_closes
    simp [mkOpts, mkEnv, hK]

/-- C7 witness: skip 1 block of 4 bytes on a 10-byte source: 6 bytes in 2
blocks are copied. -/
theorem C7_witness :
    0 < 4 ∧ 1 * 4 < 10 ∧
    copy_file (mkOpts 4 0 1) (mkEnv 10 (fun _ => false)) = .success 2 6 [3, 4] true := by
  have h := (C7_skip_positioning 1 4 10 (by norm_num) (by norm_num)).1
  norm_num at h
  exact ⟨by norm_num, by norm_num, h⟩

/-- C8: when the destination open fails, the abort path closes the source
descriptor exactly once, frees no buffer (none was allocated), carries the
diagnostic naming the failing path, and exits with failure status. -/
theorem C8_out_open_cleanup (opts : Options) (env : Env)
    (h1 : env.open_in_ok = true) (h2 : env.open_out_ok = false)
    (h3 : opts.of_path ≠ "-") (h4 : 0 ≤ env.in_fd) :
    copy_file opts env =
      .aborted ("error opening output file " ++ opts.of_path)
        [in_descriptor opts env] false ∧
    ([in_descriptor opts env] : List Int).count (in_descriptor opts env) = 1 ∧
    run_exit_code (copy_file opts env) = EXIT_FAILURE := by
  have hifd : in_descriptor opts env ≠ -1 := by
    unfold in_descriptor STDIN_FILENO
    split
    · omega
    · omega
  have hmain : copy_file opts env =
      .aborted ("error opening output file " ++ opts.of_path)
        [in_descriptor opts env] false := by
    unfold copy_file open_file cleanup_closes in_descriptor STDIN_FILENO
    by_cases hin : opts.if_path = "-" <;>
      simp [hin, h1, h2, h3] <;> try omega
  refine ⟨hmain, by simp, by rw [hmain]; rfl⟩

/-- C8 witness: destination open fails with the source on descriptor 3: the
run aborts closing exactly descriptor 3, frees nothing, exits with failure. -/
theorem C8_witness :
    copy_file (mkOpts 4 0 0) { mkEnv 5 (fun _ => false) with open_out_ok := false } =
      .aborted "error opening output file out" [3] false ∧
    ([(3 : Int)] : List Int).count (3 : Int) = 1 ∧
    run_exit_code (copy_file (mkOpts 4 0 0)
      { mkEnv 5 (fun _ => false) with open_out_ok := false }) = EXIT_FAILURE := by
  have h := C8_out_open_cleanup (mkOpts 4 0 0)
    { mkEnv 5 (fun _ => false) with open_out_ok := false } rfl rfl (by decide) (by decide)
  simpa [in_descriptor, mkOpts, mkEnv] using h

/-- C6 counterexample: with the source bound to standard input via the `-`
token, the success path still closes `STDIN_FILENO` — the claim that
standard stream descriptors are skipped when closing is false at this
input. -/
theorem C6_counterexample :
    copy_file { mkOpts 4 0 0 with if_path := "-" } (mkEnv 0 (fun _ => false)) =
      .success 0 0 [STDIN_FILENO, 4] true ∧
    STDIN_FILENO ∈ [STDIN_FILENO, (4 : Int)] := by
  constructor
  · rw [copy_file_success _ _ rfl rfl rfl rfl rfl]
    have hloop := copyLoop_no_limit 4 (by norm_num) 0 0 0 0 0 0 (by omega)
    simp only [chosen_bs, in_descriptor, out_descriptor, mkOpts, mkEnv] at *
    simp [hloop]
  · simp

/-- C6 amended: on the successful Closed path the engine frees the buffer
and closes both descriptors unconditionally — the standard stream
descriptors included, not skipped. -/
theorem C6_close_unconditional (opts : Options) (env : Env)
    (h1 : env.open_in_ok = true) (h2 : env.open_out_ok = true)
    (h3 : env.alloc_ok = true) (h4 : env.skip_ok = true) (h5 : env.seek_ok = true) :
    ∃ blocks bytes, copy_file opts env =
      .success blocks bytes [in_descriptor opts env, out_descriptor opts env] true :=
  ⟨_, _, copy_file_success opts env h1 h2 h3 h4 h5⟩

/-- C6 witness: a concrete all-succeeding run with the source on standard
input closes both held descriptors and frees the buffer. -/
theorem C6_witness :
    ∃ blocks bytes,
      copy_file { mkOpts 4 0 0 with if_path := "-" } (mkEnv 7 (fun _ => false)) =
        .success blocks bytes
          [in_descriptor { mkOpts 4 0 0 with if_path := "-" } (mkEnv 7 (fun _ => false)),
            out_descriptor { mkOpts 4 0 0 with if_path := "-" } (mkEnv 7 (fun _ => false))]
          true :=
  C6_close_unconditional { mkOpts 4 0 0 with if_path := "-" } (mkEnv 7 (fun _ => false))
    rfl rfl rfl rfl rfl

/-- C4, code-bug evidence: a configured block size of 100 bytes — below the
source's own `MIN_BLOCK_SIZE` of 512 — parses, passes `handle_bs` and passes
`validate_options`, so the claimed `[512 B, 128 MiB]` invariant is not
enforced: only zero and sizes above 128 MiB are rejected. -/
theorem C4_below_min_accepted :
    parse_size "100" = 100 ∧
    handle_bs (mkOpts DEFAULT_BLOCK_SIZE 0 0) "100" = .ok (mkOpts 100 0 0) ∧
    validate_options (mkOpts 100 0 0) true = .ok (mkOpts 100 0 0) ∧
    100 < MIN_BLOCK_SIZE := by
  decide

/-- C5 counterexample: two runs with elapsed time `1/2048` s (below 1 ms)
report different summary throughputs (4096 and 2048 MB/s), so no fixed
high-throughput sentinel is reported for sub-millisecond runs: the summary
divides unconditionally. -/
theorem C5_counterexample :
    summary_mbps 2097152 (1 / 2048) = 4096 ∧
    summary_mbps 1048576 (1 / 2048) = 2048 ∧
    ¬ ∃ V : ℚ, ∀ (b : ℕ) (e : ℚ), 0 < e → e < 1 / 1000 → summary_mbps b e = V := by
  have e1 : summary_mbps 2097152 (1 / 2048) = 4096 := by
    unfold summary_mbps MEGABYTE
    norm_num
  have e2 : summary_mbps 1048576 (1 / 2048) = 2048 := by
    unfold summary_mbps MEGABYTE
    norm_num
  refine ⟨e1, e2, ?_⟩
  rintro ⟨V, hV⟩
  have h1 := hV 2097152 (1 / 2048) (by norm_num) (by norm_num)
  have h2 := hV 1048576 (1 / 2048) (by norm_num) (by norm_num)
  rw [e1] at h1
  rw [e2] at h2
  have h3 : (4096 : ℚ) = 2048 := h1.trans h2.symm
  norm_num at h3

/-- C5 amended: the only elapsed-time guard in the program is in the live
progress computation, which returns the progress info unchanged (skipping
every division) whenever elapsed time is below 0.1 s; the terminal summary
itself divides by the elapsed time unconditionally. -/
theorem C5_progress_guard (info : ProgressInfo) (bytes_copied : ℕ) (elapsed : ℚ)
    (total_bytes : ℕ) (h : elapsed < 1 / 10) :
    calculate_progress info bytes_copied elapsed total_bytes = info := by
  rw [calculate_progress, if_pos h]

/-- C5 witness: at elapsed time `1/20` s the progress info is untouched. -/
theorem C5_guard_witness :
    calculate_progress info0 5 (1 / 20) 10 = info0 :=
  C5_progress_guard info0 5 (1 / 20) 10 (by norm_num)

/-- C9: `format_size` divides repeatedly by 1024 capping at the terabyte
unit (index 4): the selected unit is at most 4, the rendered value is the
input divided by `1024 ^ unit`, a unit below the cap keeps the value under
1024, every smaller unit would leave the value at or above 1024 (smallest
unit keeping the value < 1024, except at the terabyte ceiling), the value is
monotonic in the input within a fixed unit band, and the rendered pair is
that value with the unit's suffix string. -/
theorem C9_format_size (x : ℚ) :
    (format_size_loop x 0).2 ≤ 4 ∧
    (format_size_loop x 0).1 = x / 1024 ^ (format_size_loop x 0).2 ∧
    ((format_size_loop x 0).2 < 4 → (format_size_loop x 0).1 < 1024) ∧
    (∀ j, j < (format_size_loop x 0).2 → 1024 ≤ x / 1024 ^ j) ∧
    (∀ y : ℚ, x ≤ y → (format_size_loop y 0).2 = (format_size_loop x 0).2 →
      (format_size_loop x 0).1 ≤ (format_size_loop y 0).1) ∧
    format_size x = ((format_size_loop x 0).1, UNIT_STRINGS.getD (format_size_loop x 0).2 "") := by
  obtain ⟨h1, h2, h3, h4, h5⟩ := format_size_loop_spec 4 x 0 (by omega) (by omega)
  simp only [Nat.sub_zero] at h3 h5
  refine ⟨h2, h3, h4, ?_, ?_, rfl⟩
  · intro j hj
    exact h5 j (Nat.zero_le j) hj
  · intro y hxy hu
    obtain ⟨g1, g2, g3, g4, g5⟩ := format_size_loop_spec 4 y 0 (by omega) (by omega)
    simp only [Nat.sub_zero] at g3
    rw [h3, g3, hu]
    gcongr

/-- C10: when a size value is unparsable — `strtoull` converts nothing, or
the character after the digits is not a recognized unit suffix — `parse_size`
returns 0 and the count/skip/seek handlers silently store 0 with no
diagnostic (an unbounded copy for count, no repositioning for skip/seek);
only `handle_bs` treats the 0 as a fatal configuration error. -/
theorem C10_unparsable (opts : Options) (v : String)
    (h : (strtoull10 v.data).consumed = false ∨
      ∃ c cs, (strtoull10 v.data).rest = c :: cs ∧ c.toUpper ≠ 'K' ∧ c.toUpper ≠ 'M' ∧
        c.toUpper ≠ 'G' ∧ c.toUpper ≠ Char.ofNat 0) :
    parse_size v = 0 ∧
    handle_count opts v = .ok { opts with count := 0 } ∧
    handle_skip opts v = .ok { opts with skip := 0 } ∧
    handle_seek opts v = .ok { opts with seek := 0 } ∧
    handle_bs opts v = .fatal ("invalid block size: " ++ v) := by
  have hps : parse_size v = 0 := by
    rcases h with hcons | ⟨c, cs, hrest, hK, hM, hG, h0⟩
    · simp [parse_size, hcons]
    · by_cases hc : (strtoull10 v.data).consumed = false
      · simp [parse_size, hc]
      · simp [parse_size, hc, hrest, hK, hM, hG, h0]
  exact ⟨hps, by simp [handle_count, hps], by simp [handle_skip, hps],
    by simp [handle_seek, hps], by simp [handle_bs, hps]⟩

/-- C10 witness: the unparsable value `xyz` parses to 0 and every handler
stores it silently, while `handle_bs` rejects it fatally. -/
theorem C10_witness :
    parse_size "xyz" = 0 ∧
    handle_count (mkOpts DEFAULT_BLOCK_SIZE 0 0) "xyz" =
      .ok { mkOpts DEFAULT_BLOCK_SIZE 0 0 with count := 0 } ∧
    handle_skip (mkOpts DEFAULT_BLOCK_SIZE 0 0) "xyz" =
      .ok { mkOpts DEFAULT_BLOCK_SIZE 0 0 with skip := 0 } ∧
    handle_seek (mkOpts DEFAULT_BLOCK_SIZE 0 0) "xyz" =
      .ok { mkOpts DEFAULT_BLOCK_SIZE 0 0 with seek := 0 } ∧
    handle_bs (mkOpts DEFAULT_BLOCK_SIZE 0 0) "xyz" = .fatal ("invalid block size: " ++ "xyz") :=
  C10_unparsable (mkOpts DEFAULT_BLOCK_SIZE 0 0) "xyz" (Or.inl (by decide))

end Pdd
